import Mathlib

/-
Shallow embedding of the stock-ledger core of the inventory_management
repository (inventory/models.py, inventory/views.py, inventory/forms.py).

Django DecimalField values (10 digits, 2 decimal places) are modeled as
integers counted in hundredths of a unit: addition, subtraction and
comparison -- the only operations the code performs on them -- are exact
on decimals and are preserved by this scaling.  Database rows are modeled
as lists of records; primary-key lookup is List.find? on the id field,
and a row update (Django save on an existing primary key) replaces every
row carrying that id.  The source value "return" of the transaction-type
enumeration is a Lean keyword, so its constructor is named ret here.
-/

inductive TransactionType where
  | purchase
  | sale
  | ret
  | adjustment
  deriving DecidableEq

/-- inventory/models.py, class Product: id, current_stock, unit_price.
Fields the stock logic never reads (name, code, description, unit of
measure) are omitted. -/
structure Product where
  id : Nat
  current_stock : Int
  unit_price : Int
  deriving DecidableEq

/-- inventory/models.py, class Transaction: id, transaction_type, and the
created_by user reference (nullable, stored as a user id). -/
structure Transaction where
  id : Nat
  transaction_type : TransactionType
  created_by : Option Nat
  deriving DecidableEq

/-- inventory/models.py, class TransactionDetail (a ledger line): id, the
owning transaction, the product, quantity, optional unit price. -/
structure TransactionDetail where
  id : Nat
  transaction_id : Nat
  product_id : Nat
  quantity : Int
  unit_price : Option Int
  deriving DecidableEq

/-- The persistent state: the three tables the stock logic touches. -/
structure DB where
  products : List Product
  transactions : List Transaction
  details : List TransactionDetail
  deriving DecidableEq

def findTransactionIn (ts : List Transaction) (tid : Nat) : Option Transaction :=
  ts.find? (fun t => t.id == tid)

def DB.findProduct (db : DB) (pid : Nat) : Option Product :=
  db.products.find? (fun p => p.id == pid)

def DB.findTransaction (db : DB) (tid : Nat) : Option Transaction :=
  findTransactionIn db.transactions tid

def DB.findDetail (db : DB) (did : Nat) : Option TransactionDetail :=
  db.details.find? (fun d => d.id == did)

/-- product.save(): update the row whose primary key matches. -/
def DB.saveProduct (db : DB) (p : Product) : DB :=
  { db with products := db.products.map (fun q => if q.id == p.id then p else q) }

/-- The membership test the source writes twice:
transaction_type in [purchase, return, adjustment]. -/
def isIncomingType (t : TransactionType) : Prop :=
  t = .purchase ∨ t = .ret ∨ t = .adjustment

instance (t : TransactionType) : Decidable (isIncomingType t) := by
  unfold isIncomingType
  infer_instance

/-- Failure modes of the persistence layer modeled here:
a missing related row, and the insufficient-stock ValidationError of
TransactionDetail.clean, which reports the available and requested
quantities (models.py lines 176-180). -/
inductive SaveError where
  | relatedRowMissing
  | insufficientStock (available : Int) (requested : Int)
  deriving DecidableEq

/-- inventory/models.py lines 165-180, TransactionDetail.clean: for a sale
transaction, reject the line when product.current_stock < quantity.  In
the model the owning transaction is always persisted, so the early return
for an unsaved transaction never fires. -/
def TransactionDetail.clean (db : DB) (d : TransactionDetail) :
    Except SaveError Unit :=
  match db.findTransaction d.transaction_id, db.findProduct d.product_id with
  | some t, some p =>
    if t.transaction_type = .sale then
      if p.current_stock < d.quantity then
        .error (.insufficientStock p.current_stock d.quantity)
      else .ok ()
    else .ok ()
  | _, _ => .error .relatedRowMissing

/-- inventory/models.py lines 182-203, TransactionDetail.save on a new row
(is_new): run clean, adjust the product stock by +quantity for
purchase/return/adjustment and -quantity otherwise, overwrite the product
unit_price when the line supplies one, save the product, then insert the
line. -/
def TransactionDetail.saveNew (db : DB) (d : TransactionDetail) :
    Except SaveError DB :=
  match db.findTransaction d.transaction_id, db.findProduct d.product_id with
  | some t, some p =>
    match TransactionDetail.clean db d with
    | .error e => .error e
    | .ok _ =>
      let stock :=
        if isIncomingType t.transaction_type then p.current_stock + d.quantity
        else p.current_stock - d.quantity
      let price :=
        match d.unit_price with
        | some up => up
        | none => p.unit_price
      .ok { db.saveProduct { p with current_stock := stock, unit_price := price }
            with details := db.details ++ [d] }
  | _, _ => .error .relatedRowMissing

/-- inventory/models.py lines 182-184 and 203, TransactionDetail.save on an
already-persisted row (is_new is false): the whole stock-and-price block is
skipped and super().save() merely updates the stored row. -/
def TransactionDetail.saveExisting (db : DB) (d : TransactionDetail) : DB :=
  { db with details := db.details.map (fun x => if x.id == d.id then d else x) }

/-- inventory/models.py lines 205-213, TransactionDetail.delete: reverse the
stock adjustment (minus for purchase/return/adjustment, plus otherwise),
save the product, then remove the row. -/
def TransactionDetail.delete (db : DB) (did : Nat) : Except SaveError DB :=
  match db.findDetail did with
  | none => .error .relatedRowMissing
  | some d =>
    match db.findTransaction d.transaction_id, db.findProduct d.product_id with
    | some t, some p =>
      let stock :=
        if isIncomingType t.transaction_type then p.current_stock - d.quantity
        else p.current_stock + d.quantity
      .ok { db.saveProduct { p with current_stock := stock }
            with details := db.details.eraseP (fun x => x.id == did) }
    | _, _ => .error .relatedRowMissing

/-- A creation attempt as the caller sees it: on success the new state, on
failure the unchanged state together with the error (the Python exception
propagates before any write, since clean runs first). -/
def trySaveNew (db : DB) (d : TransactionDetail) : DB × Option SaveError :=
  match TransactionDetail.saveNew db d with
  | .ok db2 => (db2, none)
  | .error e => (db, some e)

/-- The authenticated user a view request carries. -/
structure User where
  id : Nat
  is_staff : Bool
  deriving DecidableEq

/-- inventory/models.py lines 126-131 declare on_delete CASCADE for the
details of a transaction.  Django performs a cascading delete at the SQL
level, through the deletion collector, and documents that an overridden
Model.delete method is not called for rows removed by a bulk or cascading
delete; so Transaction.delete removes the transaction row and every
dependent TransactionDetail row without running the stock reversal of
TransactionDetail.delete. -/
def Transaction.cascadeDelete (db : DB) (tid : Nat) : DB :=
  { db with
    transactions := db.transactions.filter (fun t => t.id != tid),
    details := db.details.filter (fun d => d.transaction_id != tid) }

/-- The cascade as the spec describes it (section 4.4): each ledger line of
the transaction is removed individually through the rule of 4.2, i.e.
through TransactionDetail.delete, each reversing its stock contribution;
then the transaction row is removed.  This definition follows the words of
the spec and exists to be compared with Transaction.cascadeDelete, the
behavior of the source. -/
def Transaction.specCascadeDelete (db : DB) (tid : Nat) : DB :=
  let ids := (db.details.filter (fun d => d.transaction_id == tid)).map
    (fun d => d.id)
  let db1 := ids.foldl
    (fun acc did =>
      match TransactionDetail.delete acc did with
      | .ok db2 => db2
      | .error _ => acc) db
  { db1 with transactions := db1.transactions.filter (fun t => t.id != tid) }

/-- Outcome of the transaction_delete view: the state it leaves behind,
tagged with what the response reports. -/
inductive DeleteOutcome where
  | notFound (db : DB)
  | deleted (db : DB)
  | permissionDenied (db : DB)
  deriving DecidableEq

/-- inventory/views.py lines 102-117, transaction_delete, on a POST request
from an authenticated user: look up the transaction (404 when absent);
when the requester is staff or is the creating user, delete the
transaction (cascading per Transaction.cascadeDelete) and report success;
otherwise report a permission error and change nothing.  The unauthenticated
and non-POST paths redirect without touching the state and are not modeled. -/
def transaction_delete (db : DB) (user : User) (pk : Nat) : DeleteOutcome :=
  match db.findTransaction pk with
  | none => .notFound db
  | some t =>
    if user.is_staff = true ∨ t.created_by = some user.id then
      .deleted (Transaction.cascadeDelete db pk)
    else
      .permissionDenied db

/-- The conditional aggregate of inventory/views.py lines 124-131 and
224-231: Case(When(transaction type in [purchase, return, adjustment],
then quantity), default 0) evaluated on one ledger line. -/
def caseIn (ts : List Transaction) (d : TransactionDetail) : Int :=
  match findTransactionIn ts d.transaction_id with
  | some t => if isIncomingType t.transaction_type then d.quantity else 0
  | none => 0

/-- The conditional aggregate of inventory/views.py lines 132-139 and
232-239: Case(When(transaction type is sale, then quantity), default 0)
evaluated on one ledger line. -/
def caseOut (ts : List Transaction) (d : TransactionDetail) : Int :=
  match findTransactionIn ts d.transaction_id with
  | some t => if t.transaction_type = .sale then d.quantity else 0
  | none => 0

/-- The ledger lines of one product. -/
def DB.productDetails (db : DB) (pid : Nat) : List TransactionDetail :=
  db.details.filter (fun d => d.product_id == pid)

/-- inventory/views.py lines 119-140, inventory_report: the total_in
annotation of one product.  A product with no lines contributes one
all-null joined row whose Case value is the default 0, so the sum is 0. -/
def report_total_in (db : DB) (pid : Nat) : Int :=
  ((db.productDetails pid).map (caseIn db.transactions)).sum

/-- inventory/views.py lines 119-140, inventory_report: the total_out
annotation of one product. -/
def report_total_out (db : DB) (pid : Nat) : Int :=
  ((db.productDetails pid).map (caseOut db.transactions)).sum

/-- inventory/views.py lines 222-240, ProductStockMovementsView: the SQL
aggregate over the product movements, which is NULL (none) when the
queryset is empty. -/
def movements_aggregate_in (db : DB) (pid : Nat) : Option Int :=
  match db.productDetails pid with
  | [] => none
  | ds => some ((ds.map (caseIn db.transactions)).sum)

def movements_aggregate_out (db : DB) (pid : Nat) : Option Int :=
  match db.productDetails pid with
  | [] => none
  | ds => some ((ds.map (caseOut db.transactions)).sum)

/-- inventory/views.py lines 242-244: the null aggregate is coerced to 0
before it reaches the template (totals or 0). -/
def movements_total_in (db : DB) (pid : Nat) : Int :=
  (movements_aggregate_in db pid).getD 0

def movements_total_out (db : DB) (pid : Nat) : Int :=
  (movements_aggregate_out db pid).getD 0

/-- The totals as claim C7 words them: the sum of the quantities of the
product lines whose transaction type is purchase, return or adjustment.
Stated independently of the Case-expression form used by the views, to be
compared with report_total_in and movements_total_in. -/
def spec_total_in (db : DB) (pid : Nat) : Int :=
  ((db.details.filter (fun d =>
      d.product_id == pid &&
      match findTransactionIn db.transactions d.transaction_id with
      | some t => decide (isIncomingType t.transaction_type)
      | none => false)).map (fun d => d.quantity)).sum

/-- The totals as claim C7 words them: the sum of the quantities of the
product lines whose transaction type is sale. -/
def spec_total_out (db : DB) (pid : Nat) : Int :=
  ((db.details.filter (fun d =>
      d.product_id == pid &&
      match findTransactionIn db.transactions d.transaction_id with
      | some t => decide (t.transaction_type = .sale)
      | none => false)).map (fun d => d.quantity)).sum

/-- inventory/forms.py lines 95-98, TransactionDetailForm: the initial
value the form gives the unit_price field when the line has a product,
namely that product's stored unit_price.  This is the defaulting mechanism
behind the help text "Leave blank to use product default price". -/
def TransactionDetailForm_initial_unit_price (p : Product) : Int :=
  p.unit_price

/-- The signed contribution of one ledger line to its product stock:
positive for purchase/return/adjustment, negative otherwise. -/
def lineSigned (ts : List Transaction) (d : TransactionDetail) : Int :=
  match findTransactionIn ts d.transaction_id with
  | some t => if isIncomingType t.transaction_type then d.quantity else -d.quantity
  | none => 0

def signedSumList (ts : List Transaction) (ds : List TransactionDetail)
    (pid : Nat) : Int :=
  ((ds.filter (fun d => d.product_id == pid)).map (lineSigned ts)).sum

/-- The signed sum of the quantities of one product ledger lines. -/
def DB.signedSum (db : DB) (pid : Nat) : Int :=
  signedSumList db.transactions db.details pid

/-- The stock invariant of spec section 3: every product row carries the
signed sum of its remaining ledger lines. -/
def stockInvariant (db : DB) : Prop :=
  ∀ p ∈ db.products, p.current_stock = db.signedSum p.id

/-- One ledger mutation: a successful ledger-line creation or a successful
ledger-line deletion, executed sequentially. -/
inductive LedgerStep : DB → DB → Prop where
  | create (d : TransactionDetail) (db db2 : DB) :
      TransactionDetail.saveNew db d = .ok db2 → LedgerStep db db2
  | remove (did : Nat) (db db2 : DB) :
      TransactionDetail.delete db did = .ok db2 → LedgerStep db db2

/-- A starting state: no ledger lines, every product at stock zero (the
field default of models.py line 33). -/
def initialDB (db : DB) : Prop :=
  db.details = [] ∧ ∀ p ∈ db.products, p.current_stock = 0

/-- The product row saveNew writes for the found transaction and product. -/
def savedProduct (d : TransactionDetail) (t : Transaction) (p : Product) :
    Product :=
  { p with
    current_stock :=
      if isIncomingType t.transaction_type then p.current_stock + d.quantity
      else p.current_stock - d.quantity,
    unit_price := d.unit_price.getD p.unit_price }

/-
Concrete data for the witness theorems, following the scenario of spec
section 8: product A starts at stock 0, a purchase of 10 raises it to 10,
a sale of 15 is rejected, a sale of 4 lowers it to 6, and deleting the
purchase line drives it to -4.
-/

def exProduct : Product := ⟨1, 0, 100⟩

def exDB0 : DB :=
  ⟨[exProduct],
   [⟨1, .purchase, some 5⟩, ⟨2, .sale, some 5⟩, ⟨3, .sale, some 5⟩],
   []⟩

def exPurchase10 : TransactionDetail := ⟨1, 1, 1, 10, none⟩

def exSale15 : TransactionDetail := ⟨2, 2, 1, 15, none⟩

def exSale4 : TransactionDetail := ⟨3, 3, 1, 4, none⟩

def exSaleAll : TransactionDetail := ⟨4, 2, 1, 10, none⟩

def exPriced : TransactionDetail := ⟨9, 1, 1, 3, some 250⟩

def exDB1 : DB :=
  ⟨[⟨1, 10, 100⟩], exDB0.transactions, [exPurchase10]⟩

def exDB2 : DB :=
  ⟨[⟨1, 6, 100⟩], exDB0.transactions, [exPurchase10, exSale4]⟩

def exDB9 : DB :=
  ⟨[⟨1, 3, 250⟩], exDB0.transactions, [exPriced]⟩

theorem find?_eraseP_decomp {α : Type} (q : α → Bool) :
    ∀ (l : List α) (a : α), l.find? q = some a →
      ∃ l₁ l₂, l = l₁ ++ a :: l₂ ∧ l.eraseP q = l₁ ++ l₂ := by
  intro l
  induction l with
  | nil => intro a h; simp [List.find?] at h
  | cons b l ih =>
    intro a h
    by_cases hb : q b
    · rw [List.find?_cons_of_pos _ hb] at h
      obtain rfl : b = a := by simpa using h
      exact ⟨[], l, by simp, by simp [List.eraseP_cons_of_pos, hb]⟩
    · rw [List.find?_cons_of_neg _ hb] at h
      obtain ⟨l₁, l₂, hdec, hera⟩ := ih a h
      exact ⟨b :: l₁, l₂, by simp [hdec],
        by simp [List.eraseP_cons_of_neg, hb, hera]⟩

theorem Product.id_of_found (db : DB) (pid : Nat) (p : Product)
    (h : db.findProduct pid = some p) : p.id = pid := by
  simpa using List.find?_some h

theorem Product.mem_of_found (db : DB) (pid : Nat) (p : Product)
    (h : db.findProduct pid = some p) : p ∈ db.products :=
  List.mem_of_find?_eq_some h

theorem findProduct_saveProduct (p p2 : Product) (hid : p2.id = p.id) :
    ∀ (l : List Product), l.find? (fun x => x.id == p.id) = some p →
      (l.map (fun q => if q.id == p2.id then p2 else q)).find?
        (fun x => x.id == p.id) = some p2 := by
  intro l
  induction l with
  | nil => intro h; simp [List.find?] at h
  | cons a l ih =>
    intro h
    by_cases ha : a.id = p.id
    · rw [List.find?_cons_of_pos _ (by simpa using ha)] at h
      simp only [List.map_cons]
      rw [if_pos (by simp [hid, ha])]
      exact List.find?_cons_of_pos _ (by simp [hid])
    · rw [List.find?_cons_of_neg _ (by simpa using ha)] at h
      simp only [List.map_cons]
      rw [if_neg (by simp [hid, ha])]
      rw [List.find?_cons_of_neg _ (by simpa using ha)]
      exact ih h

/-- After saving an updated copy of a found product, looking the id up again
returns the updated copy. -/
theorem DB.findProduct_after_save (db : DB) (pid : Nat) (p p2 : Product)
    (h : db.findProduct pid = some p) (hid : p2.id = p.id) :
    (db.saveProduct p2).findProduct pid = some p2 := by
  have hp := Product.id_of_found db pid p h
  subst hp
  unfold DB.findProduct at h ⊢
  unfold DB.saveProduct
  exact findProduct_saveProduct p p2 hid db.products h

theorem signedSumList_append_single (ts : List Transaction)
    (l : List TransactionDetail) (d : TransactionDetail) (pid : Nat) :
    signedSumList ts (l ++ [d]) pid =
      signedSumList ts l pid +
        (if d.product_id = pid then lineSigned ts d else 0) := by
  unfold signedSumList
  by_cases h : d.product_id = pid <;>
    simp [List.filter_append, h]

theorem signedSumList_middle (ts : List Transaction)
    (l₁ l₂ : List TransactionDetail) (d : TransactionDetail) (pid : Nat) :
    signedSumList ts (l₁ ++ d :: l₂) pid =
      signedSumList ts (l₁ ++ l₂) pid +
        (if d.product_id = pid then lineSigned ts d else 0) := by
  unfold signedSumList
  by_cases h : d.product_id = pid
  · simp [List.filter_append, List.filter_cons, h]
    ring
  · simp [List.filter_append, List.filter_cons, h]

theorem clean_of_found (db : DB) (d : TransactionDetail) (t : Transaction)
    (p : Product)
    (ht : db.findTransaction d.transaction_id = some t)
    (hp : db.findProduct d.product_id = some p) :
    TransactionDetail.clean db d =
      if t.transaction_type = .sale ∧ p.current_stock < d.quantity then
        .error (.insufficientStock p.current_stock d.quantity)
      else .ok () := by
  unfold TransactionDetail.clean
  rw [ht, hp]
  by_cases hs : t.transaction_type = .sale
  · by_cases hq : p.current_stock < d.quantity
    · simp [hs, hq]
    · simp [hs, hq]
  · simp [hs]

theorem saveNew_of_found (db : DB) (d : TransactionDetail) (t : Transaction)
    (p : Product)
    (ht : db.findTransaction d.transaction_id = some t)
    (hp : db.findProduct d.product_id = some p) :
    TransactionDetail.saveNew db d =
      if t.transaction_type = .sale ∧ p.current_stock < d.quantity then
        .error (.insufficientStock p.current_stock d.quantity)
      else
        .ok { db.saveProduct (savedProduct d t p)
              with details := db.details ++ [d] } := by
  unfold TransactionDetail.saveNew
  rw [ht, hp, clean_of_found db d t p ht hp]
  by_cases hc : t.transaction_type = .sale ∧ p.current_stock < d.quantity
  · simp [hc]
  · rw [if_neg hc, if_neg hc]
    rcases hu : d.unit_price with _ | up <;>
      simp [savedProduct, hu]

theorem delete_of_found (db : DB) (did : Nat) (d : TransactionDetail)
    (t : Transaction) (p : Product)
    (hd : db.findDetail did = some d)
    (ht : db.findTransaction d.transaction_id = some t)
    (hp : db.findProduct d.product_id = some p) :
    TransactionDetail.delete db did =
      .ok { db.saveProduct
              { p with
                current_stock :=
                  if isIncomingType t.transaction_type then
                    p.current_stock - d.quantity
                  else p.current_stock + d.quantity }
            with details := db.details.eraseP (fun x => x.id == did) } := by
  unfold TransactionDetail.delete
  rw [hd]
  dsimp only
  rw [ht, hp]

theorem saveNew_ok_inv (db : DB) (d : TransactionDetail) (db2 : DB)
    (h : TransactionDetail.saveNew db d = .ok db2) :
    ∃ t p, db.findTransaction d.transaction_id = some t ∧
      db.findProduct d.product_id = some p ∧
      ¬ (t.transaction_type = .sale ∧ p.current_stock < d.quantity) ∧
      db2 = { db.saveProduct (savedProduct d t p)
              with details := db.details ++ [d] } := by
  rcases ht : db.findTransaction d.transaction_id with _ | t
  · unfold TransactionDetail.saveNew at h
    rw [ht] at h
    simp at h
  · rcases hp : db.findProduct d.product_id with _ | p
    · unfold TransactionDetail.saveNew at h
      rw [ht, hp] at h
      simp at h
    · rw [saveNew_of_found db d t p ht hp] at h
      by_cases hc : t.transaction_type = .sale ∧ p.current_stock < d.quantity
      · rw [if_pos hc] at h
        simp at h
      · rw [if_neg hc] at h
        exact ⟨t, p, rfl, rfl, hc, (Except.ok.inj h).symm⟩

theorem delete_ok_inv (db : DB) (did : Nat) (db2 : DB)
    (h : TransactionDetail.delete db did = .ok db2) :
    ∃ d t p, db.findDetail did = some d ∧
      db.findTransaction d.transaction_id = some t ∧
      db.findProduct d.product_id = some p ∧
      db2 = { db.saveProduct
                { p with
                  current_stock :=
                    if isIncomingType t.transaction_type then
                      p.current_stock - d.quantity
                    else p.current_stock + d.quantity }
              with details := db.details.eraseP (fun x => x.id == did) } := by
  unfold TransactionDetail.delete at h
  rcases hd : db.findDetail did with _ | d
  · rw [hd] at h
    simp at h
  · rw [hd] at h
    dsimp only at h
    rcases ht : db.findTransaction d.transaction_id with _ | t
    · rw [ht] at h
      simp at h
    · rcases hp : db.findProduct d.product_id with _ | p
      · rw [ht, hp] at h
        simp at h
      · rw [ht, hp] at h
        dsimp only at h
        exact ⟨d, t, p, rfl, ht, hp, (Except.ok.inj h).symm⟩

theorem stockInvariant_saveNew (db db2 : DB) (d : TransactionDetail)
    (hinv : stockInvariant db) (h : TransactionDetail.saveNew db d = .ok db2) :
    stockInvariant db2 := by
  obtain ⟨t, p, ht, hp, -, rfl⟩ := saveNew_ok_inv db d db2 h
  have hpid : p.id = d.product_id := Product.id_of_found db d.product_id p hp
  have hline : lineSigned db.transactions d =
      if isIncomingType t.transaction_type then d.quantity else -d.quantity := by
    unfold lineSigned
    rw [show findTransactionIn db.transactions d.transaction_id = some t from ht]
  intro q hq
  simp only [DB.saveProduct, DB.signedSum] at hq ⊢
  rw [List.mem_map] at hq
  obtain ⟨x, hx, rfl⟩ := hq
  rw [signedSumList_append_single]
  by_cases hxid : x.id = (savedProduct d t p).id
  · rw [if_pos (by simpa using hxid)]
    have hid : (savedProduct d t p).id = p.id := rfl
    rw [hid, if_pos hpid.symm, hline]
    have hstock := hinv p (Product.mem_of_found db d.product_id p hp)
    unfold DB.signedSum at hstock
    simp only [savedProduct]
    by_cases hin : isIncomingType t.transaction_type
    · rw [if_pos hin, if_pos hin, hstock]
    · rw [if_neg hin, if_neg hin, hstock]
      ring
  · rw [if_neg (by simpa using hxid)]
    have hne : ¬ d.product_id = x.id := by
      intro hcon
      exact hxid (by rw [show (savedProduct d t p).id = p.id from rfl, hpid, hcon])
    rw [if_neg hne, add_zero]
    have hq2 := hinv x hx
    unfold DB.signedSum at hq2
    exact hq2

theorem stockInvariant_delete (db db2 : DB) (did : Nat)
    (hinv : stockInvariant db) (h : TransactionDetail.delete db did = .ok db2) :
    stockInvariant db2 := by
  obtain ⟨d, t, p, hd, ht, hp, rfl⟩ := delete_ok_inv db did db2 h
  have hpid : p.id = d.product_id := Product.id_of_found db d.product_id p hp
  have hline : lineSigned db.transactions d =
      if isIncomingType t.transaction_type then d.quantity else -d.quantity := by
    unfold lineSigned
    rw [show findTransactionIn db.transactions d.transaction_id = some t from ht]
  obtain ⟨l₁, l₂, hdec, hera⟩ :=
    find?_eraseP_decomp (fun x => x.id == did) db.details d
      (by simpa [DB.findDetail] using hd)
  have hsum : ∀ pid, signedSumList db.transactions db.details pid =
      signedSumList db.transactions (db.details.eraseP (fun x => x.id == did)) pid +
        (if d.product_id = pid then lineSigned db.transactions d else 0) := by
    intro pid
    rw [hera, hdec]
    exact signedSumList_middle db.transactions l₁ l₂ d pid
  set p2 : Product :=
    { p with
      current_stock :=
        if isIncomingType t.transaction_type then p.current_stock - d.quantity
        else p.current_stock + d.quantity } with hp2
  intro q hq
  simp only [DB.saveProduct, DB.signedSum] at hq ⊢
  rw [List.mem_map] at hq
  obtain ⟨x, hx, rfl⟩ := hq
  by_cases hxid : x.id = p2.id
  · rw [if_pos (by simpa using hxid)]
    have hstock := hinv p (Product.mem_of_found db d.product_id p hp)
    unfold DB.signedSum at hstock
    have hid : p2.id = p.id := rfl
    have hsum2 := hsum p.id
    rw [if_pos hpid.symm, hline] at hsum2
    rw [hid, hp2]
    simp only
    by_cases hin : isIncomingType t.transaction_type
    · rw [if_pos hin]
      rw [if_pos hin] at hsum2
      omega
    · rw [if_neg hin]
      rw [if_neg hin] at hsum2
      omega
  · rw [if_neg (by simpa using hxid)]
    have hq2 := hinv x hx
    unfold DB.signedSum at hq2
    have hsum2 := hsum x.id
    have hne : ¬ d.product_id = x.id := by
      intro hcon
      exact hxid (by rw [show p2.id = p.id from rfl, hpid, hcon])
    rw [if_neg hne, add_zero] at hsum2
    rw [← hsum2]
    exact hq2

theorem stockInvariant_initial (db : DB) (h : initialDB db) :
    stockInvariant db := by
  intro p hp
  rw [h.2 p hp]
  unfold DB.signedSum signedSumList
  rw [h.1]
  simp

theorem stockInvariant_reachable (db0 db : DB) (h0 : initialDB db0)
    (hr : Relation.ReflTransGen LedgerStep db0 db) : stockInvariant db := by
  induction hr with
  | refl => exact stockInvariant_initial db0 h0
  | tail _ hstep ih =>
    cases hstep with
    | create d _ _ hc => exact stockInvariant_saveNew _ _ d ih hc
    | remove did _ _ hc => exact stockInvariant_delete _ _ did ih hc

theorem totalIn_list_eq (ts : List Transaction) (pid : Nat) :
    ∀ l : List TransactionDetail,
      ((l.filter (fun d => d.product_id == pid)).map (caseIn ts)).sum =
      ((l.filter (fun d => d.product_id == pid &&
          match findTransactionIn ts d.transaction_id with
          | some t => decide (isIncomingType t.transaction_type)
          | none => false)).map (fun d => d.quantity)).sum := by
  intro l
  induction l with
  | nil => rfl
  | cons d l ih =>
    by_cases hpid : d.product_id = pid
    · rcases htf : findTransactionIn ts d.transaction_id with _ | t
      · simp [List.filter_cons, hpid, htf, caseIn, ih]
      · by_cases hin : isIncomingType t.transaction_type
        · simp [List.filter_cons, hpid, htf, caseIn, hin, ih]
        · simp [List.filter_cons, hpid, htf, caseIn, hin, ih]
    · simp [List.filter_cons, hpid, ih]

theorem totalOut_list_eq (ts : List Transaction) (pid : Nat) :
    ∀ l : List TransactionDetail,
      ((l.filter (fun d => d.product_id == pid)).map (caseOut ts)).sum =
      ((l.filter (fun d => d.product_id == pid &&
          match findTransactionIn ts d.transaction_id with
          | some t => decide (t.transaction_type = .sale)
          | none => false)).map (fun d => d.quantity)).sum := by
  intro l
  induction l with
  | nil => rfl
  | cons d l ih =>
    by_cases hpid : d.product_id = pid
    · rcases htf : findTransactionIn ts d.transaction_id with _ | t
      · simp [List.filter_cons, hpid, htf, caseOut, ih]
      · by_cases hs : t.transaction_type = .sale
        · simp [List.filter_cons, hpid, htf, caseOut, hs, ih]
        · simp [List.filter_cons, hpid, htf, caseOut, hs, ih]
    · simp [List.filter_cons, hpid, ih]

theorem report_total_in_eq_spec (db : DB) (pid : Nat) :
    report_total_in db pid = spec_total_in db pid := by
  unfold report_total_in spec_total_in DB.productDetails
  exact totalIn_list_eq db.transactions pid db.details

theorem report_total_out_eq_spec (db : DB) (pid : Nat) :
    report_total_out db pid = spec_total_out db pid := by
  unfold report_total_out spec_total_out DB.productDetails
  exact totalOut_list_eq db.transactions pid db.details

theorem movements_total_in_eq_report (db : DB) (pid : Nat) :
    movements_total_in db pid = report_total_in db pid := by
  unfold movements_total_in movements_aggregate_in report_total_in
  rcases hl : db.productDetails pid with _ | ⟨d, l⟩
  · simp
  · simp

theorem movements_total_out_eq_report (db : DB) (pid : Nat) :
    movements_total_out db pid = report_total_out db pid := by
  unfold movements_total_out movements_aggregate_out report_total_out
  rcases hl : db.productDetails pid with _ | ⟨d, l⟩
  · simp
  · simp

/-- Finding a product in the state a successful save leaves behind: the
updated row. -/
theorem findProduct_in_result (db : DB) (pid : Nat) (p p2 : Product)
    (ds : List TransactionDetail)
    (hp : db.findProduct pid = some p) (hid : p2.id = p.id) :
    ({ db.saveProduct p2 with details := ds } : DB).findProduct pid =
      some p2 := by
  have h := DB.findProduct_after_save db pid p p2 hp hid
  simpa [DB.findProduct, DB.saveProduct] using h

/-- C1: for every product P, after any sequence of ledger-line creations
and deletions executed sequentially from a fresh state, P.current_stock
equals the signed sum of the quantities of P's remaining ledger lines,
counted positive for purchase/return/adjustment lines and negative for
sale lines. -/
theorem C1_current_stock_is_signed_sum (db0 db : DB) (h0 : initialDB db0)
    (hr : Relation.ReflTransGen LedgerStep db0 db) :
    ∀ p ∈ db.products, p.current_stock = db.signedSum p.id :=
  stockInvariant_reachable db0 db h0 hr

theorem C1_current_stock_is_signed_sum_witness :
    initialDB exDB0 ∧
    Product.mk 1 10 100 ∈ exDB1.products ∧
    (Product.mk 1 10 100).current_stock = exDB1.signedSum 1 := by
  refine ⟨⟨rfl, by decide⟩, by decide, ?_⟩
  exact C1_current_stock_is_signed_sum exDB0 exDB1 ⟨rfl, by decide⟩
    (Relation.ReflTransGen.single
      (LedgerStep.create exPurchase10 exDB0 exDB1 (by rfl)))
    (Product.mk 1 10 100) (by decide)

/-- C2: creating a sale ledger line whose quantity exceeds the product's
current stock fails with the insufficient-stock validation error carrying
the available quantity, and the failed attempt returns the state, stock
and ledger lines included, unchanged. -/
theorem C2_sale_insufficient_stock_fails (db : DB) (d : TransactionDetail)
    (t : Transaction) (p : Product)
    (ht : db.findTransaction d.transaction_id = some t)
    (hty : t.transaction_type = .sale)
    (hp : db.findProduct d.product_id = some p)
    (hq : p.current_stock < d.quantity) :
    trySaveNew db d =
      (db, some (.insufficientStock p.current_stock d.quantity)) := by
  unfold trySaveNew
  rw [saveNew_of_found db d t p ht hp, if_pos ⟨hty, hq⟩]

theorem C2_sale_insufficient_stock_fails_witness :
    (10 : Int) < 15 ∧
    trySaveNew exDB1 exSale15 =
      (exDB1, some (.insufficientStock 10 15)) := by
  refine ⟨by decide, ?_⟩
  exact C2_sale_insufficient_stock_fails exDB1 exSale15
    (Transaction.mk 2 .sale (some 5)) (Product.mk 1 10 100)
    (by rfl) rfl (by rfl) (by decide)

/-- C3: a ledger-line creation that succeeds adjusts the product stock by
exactly +quantity when the owning transaction is a purchase, return or
adjustment and by exactly -quantity when it is a sale; a purchase line
always passes the stock check, for any starting stock, and raises the
stock by exactly its quantity. -/
theorem C3_create_adjusts_stock (db : DB) (d : TransactionDetail)
    (t : Transaction) (p : Product)
    (ht : db.findTransaction d.transaction_id = some t)
    (hp : db.findProduct d.product_id = some p)
    (_hqpos : 0 < d.quantity) :
    (∀ db2, TransactionDetail.saveNew db d = .ok db2 →
      (db2.findProduct d.product_id).map Product.current_stock =
        some (p.current_stock +
          (if isIncomingType t.transaction_type then d.quantity
           else -d.quantity)))
    ∧ (t.transaction_type = .purchase →
        ∃ db2, TransactionDetail.saveNew db d = .ok db2 ∧
          (db2.findProduct d.product_id).map Product.current_stock =
            some (p.current_stock + d.quantity)) := by
  have hfp := findProduct_in_result db d.product_id p (savedProduct d t p)
    (db.details ++ [d]) hp rfl
  constructor
  · intro db2 hok
    obtain ⟨t2, p2, ht2, hp2, -, rfl⟩ := saveNew_ok_inv db d db2 hok
    have ht3 : t2 = t := by rw [ht] at ht2; exact (Option.some.inj ht2).symm
    have hp3 : p2 = p := by rw [hp] at hp2; exact (Option.some.inj hp2).symm
    rw [ht3, hp3, hfp]
    simp only [Option.map_some', Option.some.injEq, savedProduct]
    by_cases hin : isIncomingType t.transaction_type
    · rw [if_pos hin, if_pos hin]
    · rw [if_neg hin, if_neg hin]
      ring
  · intro hpur
    have hnot : ¬ (t.transaction_type = .sale ∧
        p.current_stock < d.quantity) := by
      rintro ⟨hs, -⟩
      rw [hpur] at hs
      cases hs
    have hin : isIncomingType t.transaction_type := by
      rw [hpur]; exact Or.inl rfl
    refine ⟨_, by rw [saveNew_of_found db d t p ht hp, if_neg hnot], ?_⟩
    rw [hfp]
    simp only [Option.map_some', Option.some.injEq, savedProduct]
    rw [if_pos hin]

theorem C3_create_adjusts_stock_witness :
    (0 : Int) < 10 ∧
    ∃ db2, TransactionDetail.saveNew exDB0 exPurchase10 = .ok db2 ∧
      (db2.findProduct 1).map Product.current_stock = some 10 := by
  refine ⟨by decide, ?_⟩
  have h := (C3_create_adjusts_stock exDB0 exPurchase10
    (Transaction.mk 1 .purchase (some 5)) exProduct
    (by rfl) (by rfl) (by decide)).2 rfl
  simpa [exProduct, exPurchase10] using h

/-- C4: deleting an existing ledger line always succeeds and reverses
exactly the stock contribution its creation applied: the product stock
drops by the quantity for a purchase/return/adjustment line and rises by
it for a sale line, with no guard against the result going negative. -/
theorem C4_delete_reverses_contribution (db : DB) (did : Nat)
    (d : TransactionDetail) (t : Transaction) (p : Product)
    (hd : db.findDetail did = some d)
    (ht : db.findTransaction d.transaction_id = some t)
    (hp : db.findProduct d.product_id = some p) :
    ∃ db2, TransactionDetail.delete db did = .ok db2 ∧
      (db2.findProduct d.product_id).map Product.current_stock =
        some (p.current_stock -
          (if isIncomingType t.transaction_type then d.quantity
           else -d.quantity)) := by
  refine ⟨_, delete_of_found db did d t p hd ht hp, ?_⟩
  rw [findProduct_in_result db d.product_id p
    { p with
      current_stock :=
        if isIncomingType t.transaction_type then p.current_stock - d.quantity
        else p.current_stock + d.quantity }
    (db.details.eraseP (fun x => x.id == did)) hp rfl]
  simp only [Option.map_some', Option.some.injEq]
  by_cases hin : isIncomingType t.transaction_type
  · rw [if_pos hin, if_pos hin]
  · rw [if_neg hin, if_neg hin]
    ring

theorem C4_delete_reverses_contribution_witness :
    trySaveNew exDB0 exPurchase10 = (exDB1, none) ∧
    trySaveNew exDB1 exSale15 = (exDB1, some (.insufficientStock 10 15)) ∧
    trySaveNew exDB1 exSale4 = (exDB2, none) ∧
    ∃ db2, TransactionDetail.delete exDB2 1 = .ok db2 ∧
      (db2.findProduct 1).map Product.current_stock = some (-4) := by
  refine ⟨by rfl, by rfl, by rfl, ?_⟩
  have h := C4_delete_reverses_contribution exDB2 1 exPurchase10
    (Transaction.mk 1 .purchase (some 5)) (Product.mk 1 6 100)
    (by rfl) (by rfl) (by rfl)
  simpa [exPurchase10, isIncomingType] using h

/-- C5, evaluated at the failing input (product at stock 10 from one
purchase line of 10): the creator's delete request succeeds and the
cascade removes the ledger line, but the product stock stays at 10 --
the cascading SQL delete bypasses the overridden TransactionDetail.delete,
so no per-line reversal runs and the stock does not return to its
pre-line value 0 (equivalently, the remaining signed sum 0 no longer
matches the stored stock).  The per-line cascade the spec describes,
Transaction.specCascadeDelete, would leave the stock at 0. -/
theorem C5_cascade_skips_stock_reversal :
    transaction_delete exDB1 (User.mk 5 false) 1 =
      .deleted (Transaction.cascadeDelete exDB1 1) ∧
    (Transaction.cascadeDelete exDB1 1).details = [] ∧
    ((Transaction.cascadeDelete exDB1 1).findProduct 1).map
      Product.current_stock = some 10 ∧
    (Transaction.cascadeDelete exDB1 1).signedSum 1 = 0 ∧
    ((Transaction.specCascadeDelete exDB1 1).findProduct 1).map
      Product.current_stock = some 0 :=
  ⟨rfl, rfl, rfl, rfl, rfl⟩

/-- C6: a delete request for an existing transaction by a user who is
neither staff nor the creator is answered with a permission error and the
state -- transaction, ledger lines and product stocks -- is returned
untouched; for staff or the creator the deletion proceeds. -/
theorem C6_delete_authorization (db : DB) (u : User) (pk : Nat)
    (t : Transaction) (ht : db.findTransaction pk = some t) :
    (¬ (u.is_staff = true ∨ t.created_by = some u.id) →
        transaction_delete db u pk = .permissionDenied db)
    ∧ ((u.is_staff = true ∨ t.created_by = some u.id) →
        transaction_delete db u pk =
          .deleted (Transaction.cascadeDelete db pk)) := by
  unfold transaction_delete
  rw [ht]
  dsimp only
  constructor
  · intro hno
    rw [if_neg hno]
  · intro hyes
    rw [if_pos hyes]

theorem C6_delete_authorization_witness :
    transaction_delete exDB1 (User.mk 9 false) 1 =
      .permissionDenied exDB1 ∧
    transaction_delete exDB1 (User.mk 5 false) 1 =
      .deleted (Transaction.cascadeDelete exDB1 1) := by
  constructor
  · exact (C6_delete_authorization exDB1 (User.mk 9 false) 1
      (Transaction.mk 1 .purchase (some 5)) (by rfl)).1 (by decide)
  · exact (C6_delete_authorization exDB1 (User.mk 5 false) 1
      (Transaction.mk 1 .purchase (some 5)) (by rfl)).2 (by decide)

/-- C7: both the global report and the per-product movements view compute
total_in as the sum of the product's line quantities whose transaction
type is purchase, return or adjustment and total_out as the sum of those
whose type is sale; for a product with no ledger lines all four totals
are zero. -/
theorem C7_report_totals (db : DB) (pid : Nat) :
    report_total_in db pid = spec_total_in db pid ∧
    report_total_out db pid = spec_total_out db pid ∧
    movements_total_in db pid = spec_total_in db pid ∧
    movements_total_out db pid = spec_total_out db pid ∧
    (db.productDetails pid = [] →
      report_total_in db pid = 0 ∧ report_total_out db pid = 0 ∧
      movements_total_in db pid = 0 ∧ movements_total_out db pid = 0) := by
  refine ⟨report_total_in_eq_spec db pid, report_total_out_eq_spec db pid,
    (movements_total_in_eq_report db pid).trans
      (report_total_in_eq_spec db pid),
    (movements_total_out_eq_report db pid).trans
      (report_total_out_eq_spec db pid), ?_⟩
  intro hempty
  have h1 : report_total_in db pid = 0 := by
    unfold report_total_in
    rw [hempty]
    rfl
  have h2 : report_total_out db pid = 0 := by
    unfold report_total_out
    rw [hempty]
    rfl
  refine ⟨h1, h2, ?_, ?_⟩
  · rw [movements_total_in_eq_report db pid]
    exact h1
  · rw [movements_total_out_eq_report db pid]
    exact h2

theorem C7_report_totals_witness :
    exDB1.productDetails 2 = [] ∧
    report_total_in exDB1 2 = 0 ∧ report_total_out exDB1 2 = 0 ∧
    movements_total_in exDB1 2 = 0 ∧ movements_total_out exDB1 2 = 0 := by
  have h := (C7_report_totals exDB1 2).2.2.2.2 (by rfl)
  exact ⟨by rfl, h.1, h.2.1, h.2.2.1, h.2.2.2⟩

/-- C8: saving an already-persisted ledger line (an update, for example of
its quantity) rewrites only the stored line: the product table is not
touched, so every product keeps exactly the current_stock it had before
the update. -/
theorem C8_update_leaves_stock (db : DB) (d : TransactionDetail) :
    (TransactionDetail.saveExisting db d).products = db.products ∧
    ∀ pid, ((TransactionDetail.saveExisting db d).findProduct pid).map
      Product.current_stock =
        (db.findProduct pid).map Product.current_stock :=
  ⟨rfl, fun _ => rfl⟩

/-- C9: on ledger-line creation, a supplied unit price overwrites the
product's stored unit_price as a side effect; with no unit price supplied
the product's stored price is left unchanged, the line is stored as given,
and the price the detail form presents by default for the line's product
(its initial value) is that unchanged product price. -/
theorem C9_unit_price_side_effect (db : DB) (d : TransactionDetail)
    (t : Transaction) (p : Product) (db2 : DB)
    (ht : db.findTransaction d.transaction_id = some t)
    (hp : db.findProduct d.product_id = some p)
    (hok : TransactionDetail.saveNew db d = .ok db2) :
    (∀ up, d.unit_price = some up →
      (db2.findProduct d.product_id).map Product.unit_price = some up)
    ∧ (d.unit_price = none →
      (db2.findProduct d.product_id).map Product.unit_price =
        some p.unit_price
      ∧ (db2.findProduct d.product_id).map
          TransactionDetailForm_initial_unit_price = some p.unit_price
      ∧ d ∈ db2.details) := by
  obtain ⟨t2, p2, ht2, hp2, -, rfl⟩ := saveNew_ok_inv db d db2 hok
  have ht3 : t2 = t := by rw [ht] at ht2; exact (Option.some.inj ht2).symm
  have hp3 : p2 = p := by rw [hp] at hp2; exact (Option.some.inj hp2).symm
  rw [ht3, hp3]
  have hfp := findProduct_in_result db d.product_id p (savedProduct d t p)
    (db.details ++ [d]) hp rfl
  rw [hfp]
  constructor
  · intro up hup
    simp [savedProduct, hup]
  · intro hup
    refine ⟨by simp [savedProduct, hup], ?_, by simp⟩
    simp [savedProduct, TransactionDetailForm_initial_unit_price, hup]

theorem C9_unit_price_side_effect_witness :
    ∃ db2, TransactionDetail.saveNew exDB0 exPriced = .ok db2 ∧
      (db2.findProduct 1).map Product.unit_price = some 250 := by
  refine ⟨exDB9, by rfl, ?_⟩
  exact (C9_unit_price_side_effect exDB0 exPriced
    (Transaction.mk 1 .purchase (some 5)) exProduct exDB9
    (by rfl) (by rfl) (by rfl)).1 250 rfl

/-- C10: a sale line whose quantity equals the product's positive current
stock passes the insufficient-stock check -- the comparison is strict, so
only quantities strictly above the stock are rejected -- and the creation
leaves the stock at exactly zero. -/
theorem C10_sale_exact_stock_succeeds (db : DB) (d : TransactionDetail)
    (t : Transaction) (p : Product)
    (ht : db.findTransaction d.transaction_id = some t)
    (hty : t.transaction_type = .sale)
    (hp : db.findProduct d.product_id = some p)
    (_hpos : 0 < p.current_stock)
    (hq : d.quantity = p.current_stock) :
    ∃ db2, TransactionDetail.saveNew db d = .ok db2 ∧
      (db2.findProduct d.product_id).map Product.current_stock = some 0 := by
  have hnot : ¬ (t.transaction_type = .sale ∧
      p.current_stock < d.quantity) := by
    rintro ⟨-, hlt⟩
    omega
  have hnin : ¬ isIncomingType t.transaction_type := by
    rw [hty]
    rintro (h | h | h) <;> cases h
  refine ⟨_, by rw [saveNew_of_found db d t p ht hp, if_neg hnot], ?_⟩
  rw [findProduct_in_result db d.product_id p (savedProduct d t p)
    (db.details ++ [d]) hp rfl]
  simp only [Option.map_some', Option.some.injEq, savedProduct]
  rw [if_neg hnin]
  omega

theorem C10_sale_exact_stock_succeeds_witness :
    (0 : Int) < 10 ∧
    ∃ db2, TransactionDetail.saveNew exDB1 exSaleAll = .ok db2 ∧
      (db2.findProduct 1).map Product.current_stock = some 0 := by
  refine ⟨by decide, ?_⟩
  exact C10_sale_exact_stock_succeeds exDB1 exSaleAll
    (Transaction.mk 2 .sale (some 5)) (Product.mk 1 10 100)
    (by rfl) rfl (by rfl) (by decide) (by rfl)
